import Mathlib

set_option maxRecDepth 8192

/-!
Shallow embedding of `src/src/sfizz/MidiState.cpp` (the MIDI state module of
the sfizz engine) and verification of the specification claims about it.

Modelling conventions:
* C++ `float` values (velocities, controller values, sample rate, durations)
  are modelled as rationals (`ℚ`); the arithmetic the claims exercise is exact.
* C++ `unsigned` (the internal clock and the per-note timestamps) is modelled
  as `Nat` with explicit wrap-around modulo `2^32` (`uadd`, `usub`, `u32ofInt`).
* The fixed-size tables (`lastNoteVelocities`, `noteOnTimes`, `noteOffTimes`,
  `cc`) are functions out of `Fin`; an operation that in C++ indexes a table
  without a bounds check is modelled as returning `Option`, with `none`
  marking the out-of-bounds access the C++ code would perform.
* `std::vector<MidiEvent>` is a `List MidiEvent`; capacity-only operations
  (`reserve`, `shrink_to_fit`) have no observable counterpart in the model.
-/

namespace Sfizz

/-- The modulus of the C++ `unsigned` type (32-bit): `2 ^ 32`. -/
def U32 : Nat := 4294967296

/-- `static_cast<unsigned>(d)` for a C++ `int` `d`: reduce modulo `2^32`. -/
def u32ofInt (d : Int) : Nat := (d % (U32 : Int)).toNat

/-- Addition of C++ `unsigned` values (wraps modulo `2^32`). -/
def uadd (a b : Nat) : Nat := (a + b) % U32

/-- Subtraction of C++ `unsigned` values (wraps modulo `2^32`). -/
def usub (a b : Nat) : Nat := (a + (U32 - b % U32)) % U32

/-- Modelled from the spec: `config::numCCs`, the engine-configured number of
controller lanes (the config header is not under `src/`); fixed at 512 as in
the engine configuration. None of the claims depends on the exact value. -/
def numCCs : Nat := 512

/-- Modelled from the spec: one timed event of a lane. The `MidiEvent`
structure is declared in `MidiState.h` (not under `src/`); its two fields
`delay` and `value` are exactly the ones `MidiState.cpp` uses. -/
structure MidiEvent where
  delay : Int
  value : ℚ
deriving DecidableEq

/-- `sfz::EventVector`, the per-lane event container. -/
abbrev EventVector := List MidiEvent

/-- `insertEventInVector` (MidiState.cpp:114-121).  The C++ code computes
`absl::c_upper_bound(events, delay, MidiEventDelayComparator)`: on a vector
partitioned by `e.delay <= delay` (every reachable lane is weakly sorted by
`delay`, hence partitioned for every `delay`), `upper_bound` is the first
position whose element satisfies `delay < e.delay`, i.e. exactly the
`takeWhile`/`dropWhile` split below.  If that position is the end or holds a
different delay the new event is inserted there; otherwise the existing
event's value is overwritten (mirroring the source's branch structure; with
`upper_bound` the element at the returned position always has
`delay < e.delay`, so the overwrite branch is dead code). -/
def insertEventInVector (events : EventVector) (delay : Int) (value : ℚ) :
    EventVector :=
  let pre := events.takeWhile (fun e => e.delay ≤ delay)
  match events.dropWhile (fun e => e.delay ≤ delay) with
  | [] => pre ++ [⟨delay, value⟩]
  | e :: rest =>
      if e.delay ≠ delay then pre ++ ⟨delay, value⟩ :: e :: rest
      else pre ++ ⟨e.delay, value⟩ :: rest

/-- `events.back().value`; `back()` on an empty vector is undefined behaviour
in C++ (the source asserts the lanes are never empty), so the `[]` case is
given the harmless default 0. -/
def backValue : EventVector → ℚ
  | [] => 0
  | [e] => e.value
  | _ :: e :: rest => backValue (e :: rest)

/-- The `clearEvents` lambda of `advanceTime` (MidiState.cpp:60-65):
`front().value = back().value; front().delay = 0; resize(1)`.  On an empty
vector the C++ code is undefined (the `ASSERT` documents lanes are never
empty); the model leaves the empty list unchanged. -/
def clearEvents : EventVector → EventVector
  | [] => []
  | e :: rest => [⟨0, backValue (e :: rest)⟩]

/-- Modelled from the spec: the lane a just-reset or just-constructed state
holds — the single zero-valued sentinel entry at offset 0 pushed by
`reset()` (MidiState.cpp:164-167). -/
def freshLane : EventVector := [⟨0, 0⟩]

/-- Modelled from the spec: `nullEvent`, the harmless default lane returned
by `getCCEvents` for an out-of-range controller index.  It is defined in
`MidiState.h` (not under `src/`); the spec only requires it to be a harmless
default, so it is taken to be a single zero sentinel. -/
def nullEvent : EventVector := freshLane

/-- Modelled from the spec: the default sample rate installed by the member
initializers of `MidiState.h` (not under `src/`); `config::defaultSampleRate`
is 48000 in the engine configuration. -/
def defaultSampleRate : ℚ := 48000

/-- Modelled from the spec: the default block length installed by the member
initializers of `MidiState.h` (not under `src/`). -/
def defaultSamplesPerBlock : Int := 1024

/-- The `sfz::MidiState` aggregate.  The field list follows the spec's data
model (§3) and the fields `MidiState.cpp` reads and writes; the header
declaring them is not under `src/`. -/
structure MidiState where
  sampleRate : ℚ
  samplesPerBlock : Int
  internalClock : Nat
  activeNotes : Nat
  lastNotePlayed : Int
  lastNoteVelocities : Fin 128 → ℚ
  noteOnTimes : Fin 128 → Nat
  noteOffTimes : Fin 128 → Nat
  cc : Fin numCCs → EventVector
  pitchEvents : EventVector
  channelAftertouchEvents : EventVector

namespace MidiState

/-- `noteOnEvent` (MidiState.cpp:16-28): guarded by
`0 <= noteNumber && noteNumber < 128`, records the velocity, sets the note-on
timestamp to `internalClock + (unsigned)delay`, records the note as last
played and increments the active-note count; otherwise a no-op. -/
def noteOnEvent (s : MidiState) (delay : Int) (noteNumber : Int)
    (velocity : ℚ) : MidiState :=
  if h : 0 ≤ noteNumber ∧ noteNumber < 128 then
    let n : Fin 128 := ⟨noteNumber.toNat, by omega⟩
    { s with
      lastNoteVelocities := Function.update s.lastNoteVelocities n velocity
      noteOnTimes := Function.update s.noteOnTimes n
        (uadd s.internalClock (u32ofInt delay))
      lastNotePlayed := noteNumber
      activeNotes := s.activeNotes + 1 }
  else s

/-- `noteOffEvent` (MidiState.cpp:30-42): guarded by the same range check,
sets the note-off timestamp to `internalClock + (unsigned)delay` and
decrements the active-note count when it is positive; the velocity argument
is accepted but unused (`UNUSED(velocity)`). -/
def noteOffEvent (s : MidiState) (delay : Int) (noteNumber : Int)
    (velocity : ℚ) : MidiState :=
  if h : 0 ≤ noteNumber ∧ noteNumber < 128 then
    { s with
      noteOffTimes := Function.update s.noteOffTimes ⟨noteNumber.toNat, by omega⟩
        (uadd s.internalClock (u32ofInt delay))
      activeNotes := if s.activeNotes > 0 then s.activeNotes - 1 else s.activeNotes }
  else s

/-- `allNotesOff` (MidiState.cpp:44-48): a note-off for every note 0..127. -/
def allNotesOff (s : MidiState) (delay : Int) : MidiState :=
  (List.range 128).foldl (fun st (note : Nat) => noteOffEvent st delay (note : Int) 0) s

/-- `setSampleRate` (MidiState.cpp:50-56): stores the rate, zeroes the
internal clock and fills both timestamp tables with 0. -/
def setSampleRate (s : MidiState) (sampleRate : ℚ) : MidiState :=
  { s with
    sampleRate := sampleRate
    internalClock := 0
    noteOnTimes := fun _ => 0
    noteOffTimes := fun _ => 0 }

/-- `advanceTime` (MidiState.cpp:58-73): advances the clock by
`numSamples` (added as `unsigned`) and collapses every lane to its single
carry-over sentinel via `clearEvents`. -/
def advanceTime (s : MidiState) (numSamples : Int) : MidiState :=
  { s with
    internalClock := uadd s.internalClock (u32ofInt numSamples)
    cc := fun i => clearEvents (s.cc i)
    pitchEvents := clearEvents s.pitchEvents
    channelAftertouchEvents := clearEvents s.channelAftertouchEvents }

/-- `setSamplesPerBlock` (MidiState.cpp:75-87): stores the block length; the
`shrink_to_fit`/`reserve` calls only change vector capacity, which has no
observable counterpart in the model. -/
def setSamplesPerBlock (s : MidiState) (samplesPerBlock : Int) : MidiState :=
  { s with samplesPerBlock := samplesPerBlock }

/-- `getNoteDuration` (MidiState.cpp:89-100): 0 for an out-of-range note;
0 when both timestamps are nonzero and the note-on is later than the
note-off; otherwise `(internalClock + (unsigned)delay - noteOnTime) /
sampleRate`, the subtraction performed in `unsigned` arithmetic. -/
def getNoteDuration (s : MidiState) (noteNumber : Int) (delay : Int) : ℚ :=
  if h : noteNumber < 0 ∨ 128 ≤ noteNumber then 0
  else
    if s.noteOnTimes ⟨noteNumber.toNat, by omega⟩ ≠ 0 ∧
        s.noteOffTimes ⟨noteNumber.toNat, by omega⟩ ≠ 0 ∧
        s.noteOnTimes ⟨noteNumber.toNat, by omega⟩ >
          s.noteOffTimes ⟨noteNumber.toNat, by omega⟩ then 0
    else
      ((usub (uadd s.internalClock (u32ofInt delay))
          (s.noteOnTimes ⟨noteNumber.toNat, by omega⟩) : Nat) : ℚ)
        / s.sampleRate

/-- `getNoteVelocity` (MidiState.cpp:102-107): reads
`lastNoteVelocities[noteNumber]` with no release bounds check (only a
debug `ASSERT`); `none` marks the out-of-bounds read performed for an
out-of-range note number. -/
def getNoteVelocity (s : MidiState) (noteNumber : Int) : Option ℚ :=
  if h : 0 ≤ noteNumber ∧ noteNumber < 128 then
    some (s.lastNoteVelocities ⟨noteNumber.toNat, by omega⟩)
  else none

/-- `getLastVelocity` (MidiState.cpp:109-112): reads
`lastNoteVelocities[lastNotePlayed]` unconditionally; `none` marks the
out-of-bounds read for an out-of-range stored index. -/
def getLastVelocity (s : MidiState) : Option ℚ :=
  if h : 0 ≤ s.lastNotePlayed ∧ s.lastNotePlayed < 128 then
    some (s.lastNoteVelocities ⟨s.lastNotePlayed.toNat, by omega⟩)
  else none

/-- The in-range core of `ccEvent`: insert into the lane of a valid
controller index. -/
def ccEventIn (s : MidiState) (i : Fin numCCs) (delay : Int) (ccValue : ℚ) :
    MidiState :=
  { s with cc := Function.update s.cc i (insertEventInVector (s.cc i) delay ccValue) }

/-- `ccEvent` (MidiState.cpp:147-151): inserts into `cc[ccNumber]` with no
release bounds check on `ccNumber` (the only `ASSERT` is on the value);
`none` marks the out-of-bounds access performed for an out-of-range index. -/
def ccEvent (s : MidiState) (delay : Int) (ccNumber : Int) (ccValue : ℚ) :
    Option MidiState :=
  if h : 0 ≤ ccNumber ∧ ccNumber < (numCCs : Int) then
    some (ccEventIn s ⟨ccNumber.toNat, by omega⟩ delay ccValue)
  else none

/-- `getCCValue` (MidiState.cpp:153-157): reads `cc[ccNumber].back().value`
with no release bounds check (only a debug `ASSERT`); `none` marks the
out-of-bounds read for an out-of-range index. -/
def getCCValue (s : MidiState) (ccNumber : Int) : Option ℚ :=
  if h : 0 ≤ ccNumber ∧ ccNumber < (numCCs : Int) then
    some (backValue (s.cc ⟨ccNumber.toNat, by omega⟩))
  else none

/-- `getCCEvents` (MidiState.cpp:190-196): bounds-checked; returns the
`nullEvent` default for an out-of-range index. -/
def getCCEvents (s : MidiState) (ccIdx : Int) : EventVector :=
  if h : ccIdx < 0 ∨ (numCCs : Int) ≤ ccIdx then nullEvent
  else s.cc ⟨ccIdx.toNat, by omega⟩

/-- `pitchBendEvent` (MidiState.cpp:123-127). -/
def pitchBendEvent (s : MidiState) (delay : Int) (pitchBendValue : ℚ) :
    MidiState :=
  { s with pitchEvents := insertEventInVector s.pitchEvents delay pitchBendValue }

/-- `getPitchBend` (MidiState.cpp:129-133). -/
def getPitchBend (s : MidiState) : ℚ := backValue s.pitchEvents

/-- `channelAftertouchEvent` (MidiState.cpp:135-139). -/
def channelAftertouchEvent (s : MidiState) (delay : Int) (aftertouch : ℚ) :
    MidiState :=
  { s with channelAftertouchEvents :=
      insertEventInVector s.channelAftertouchEvents delay aftertouch }

/-- `getChannelAftertouch` (MidiState.cpp:141-145). -/
def getChannelAftertouch (s : MidiState) : ℚ :=
  backValue s.channelAftertouchEvents

/-- `getPitchEvents` (MidiState.cpp:198-201). -/
def getPitchEvents (s : MidiState) : EventVector := s.pitchEvents

/-- `getChannelAftertouchEvents` (MidiState.cpp:203-206). -/
def getChannelAftertouchEvents (s : MidiState) : EventVector :=
  s.channelAftertouchEvents

/-- `reset` (MidiState.cpp:159-180): zeroes the velocities, restores every
lane to the single zero sentinel, and zeroes the active-note count, clock,
last-played note and both timestamp tables.  The sample rate and block
length are not touched. -/
def reset (s : MidiState) : MidiState :=
  { s with
    lastNoteVelocities := fun _ => 0
    cc := fun _ => freshLane
    pitchEvents := freshLane
    channelAftertouchEvents := freshLane
    activeNotes := 0
    internalClock := 0
    lastNotePlayed := 0
    noteOnTimes := fun _ => 0
    noteOffTimes := fun _ => 0 }

/-- `resetAllControllers` (MidiState.cpp:182-188): a zero-valued `ccEvent`
on every controller index 0..numCCs-1 (the loop indices are provably in
range, so the in-range core is used), then a zero pitch-bend event.  The
aftertouch lane is not touched. -/
def resetAllControllers (s : MidiState) (delay : Int) : MidiState :=
  pitchBendEvent
    ((List.finRange numCCs).foldl (fun st i => ccEventIn st i delay 0) s)
    delay 0

/-- The `MidiState` constructor (MidiState.cpp:11-14): the body is
`reset()`; the member initializers (from the header, not under `src/`)
supply the default sample rate and block length, and `reset` overwrites
every other field. -/
def init : MidiState :=
  reset
    { sampleRate := defaultSampleRate
      samplesPerBlock := defaultSamplesPerBlock
      internalClock := 0
      activeNotes := 0
      lastNotePlayed := 0
      lastNoteVelocities := fun _ => 0
      noteOnTimes := fun _ => 0
      noteOffTimes := fun _ => 0
      cc := fun _ => freshLane
      pitchEvents := freshLane
      channelAftertouchEvents := freshLane }

/-- A state reached by 129 note-on calls on note 60: the active-note count
tallies calls, not distinct sounding notes, so it exceeds 128. -/
def manyNoteOns : MidiState :=
  (List.range 129).foldl (fun st _ => noteOnEvent st 0 60 1) init

/-- A reachable state whose note-60 record has note-on timestamp 1 (set at
offset 1 of the first block), note-off timestamp 0 (the "never happened"
sentinel) and internal clock 2. -/
def staleOnState : MidiState :=
  advanceTime (noteOnEvent (setSampleRate init 48000) 1 60 1) 2

/-- A reachable state whose note-60 record has note-on timestamp 2,
note-off timestamp 1 (both genuine events) and internal clock 2. -/
def onAfterOffState : MidiState :=
  noteOnEvent (advanceTime (noteOffEvent (advanceTime init 1) 0 60 0) 1) 0 60 1

/-- The numeric scenario of the spec: sample rate 48000, block length 512,
`noteOn(0, 60, 0.8)`, then `advanceBlock(512)`. -/
def durationScenario : MidiState :=
  advanceTime
    (noteOnEvent (setSamplesPerBlock (setSampleRate init 48000) 512) 0 60 (4 / 5))
    512

end MidiState

end Sfizz
namespace Sfizz
namespace MidiState

theorem noteOffEvent_internalClock (s : MidiState) (d n : Int) (v : ℚ) :
    (noteOffEvent s d n v).internalClock = s.internalClock := by
  unfold noteOffEvent; split <;> rfl

theorem noteOffEvent_activeNotes (s : MidiState) (d n : Int) (v : ℚ)
    (h0 : 0 ≤ n) (h1 : n < 128) :
    (noteOffEvent s d n v).activeNotes = s.activeNotes - 1 := by
  unfold noteOffEvent
  rw [dif_pos ⟨h0, h1⟩]
  dsimp only
  split <;> omega

theorem noteOffEvent_noteOffTimes (s : MidiState) (d n : Int) (v : ℚ)
    (h0 : 0 ≤ n) (h1 : n < 128) (m : Fin 128) :
    (noteOffEvent s d n v).noteOffTimes m =
      if (m : Int) = n then uadd s.internalClock (u32ofInt d)
      else s.noteOffTimes m := by
  unfold noteOffEvent
  rw [dif_pos ⟨h0, h1⟩]
  dsimp only
  by_cases h : (m : Int) = n
  · have hm : m = ⟨n.toNat, by omega⟩ := by
      apply Fin.ext; simp only; omega
    rw [if_pos h, hm, Function.update_same]
  · have hm : m ≠ ⟨n.toNat, by omega⟩ := by
      intro hc; apply h
      have := congrArg Fin.val hc
      simp only at this; omega
    rw [if_neg h, Function.update_noteq hm]

theorem foldOff_activeNotes (d : Int) (l : List Nat) (hl : ∀ i ∈ l, i < 128)
    (s : MidiState) :
    ((l.foldl (fun st (i : Nat) => noteOffEvent st d (i : Int) 0) s).activeNotes)
      = s.activeNotes - l.length := by
  induction l generalizing s with
  | nil => simp
  | cons i t ih =>
    rw [List.foldl_cons, ih (fun j hj => hl j (List.mem_cons_of_mem _ hj))]
    rw [noteOffEvent_activeNotes _ _ _ _ (by omega)
      (by have := hl i (List.mem_cons_self _ _); omega)]
    simp only [List.length_cons]
    omega

theorem foldOff_noteOffTimes (d : Int) (l : List Nat) (hl : ∀ i ∈ l, i < 128)
    (s : MidiState) (m : Fin 128) :
    ((l.foldl (fun st (i : Nat) => noteOffEvent st d (i : Int) 0) s).noteOffTimes m)
      = if (m : Nat) ∈ l then uadd s.internalClock (u32ofInt d)
        else s.noteOffTimes m := by
  induction l generalizing s with
  | nil => simp
  | cons i t ih =>
    rw [List.foldl_cons, ih (fun j hj => hl j (List.mem_cons_of_mem _ hj))]
    rw [noteOffEvent_internalClock]
    rw [noteOffEvent_noteOffTimes _ _ _ _ (by omega)
      (by have := hl i (List.mem_cons_self _ _); omega)]
    by_cases hmt : (m : Nat) ∈ t
    · simp [hmt]
    · by_cases hmi : (m : Nat) = i
      · simp [hmt, hmi]
      · have hne : ¬ ((m : Int) = (i : Int)) := by omega
        simp [hmt, hmi, hne]

theorem ccEventIn_cc (s : MidiState) (i : Fin numCCs) (d : Int) (v : ℚ)
    (j : Fin numCCs) :
    (ccEventIn s i d v).cc j =
      if j = i then insertEventInVector (s.cc i) d v else s.cc j :=
  Function.update_apply ..

theorem foldCC_channelAftertouchEvents (d : Int) (v : ℚ)
    (l : List (Fin numCCs)) (s : MidiState) :
    ((l.foldl (fun st i => ccEventIn st i d v) s).channelAftertouchEvents)
      = s.channelAftertouchEvents := by
  induction l generalizing s with
  | nil => rfl
  | cons i t ih => rw [List.foldl_cons, ih]; rfl

theorem foldCC_pitchEvents (d : Int) (v : ℚ)
    (l : List (Fin numCCs)) (s : MidiState) :
    ((l.foldl (fun st i => ccEventIn st i d v) s).pitchEvents)
      = s.pitchEvents := by
  induction l generalizing s with
  | nil => rfl
  | cons i t ih => rw [List.foldl_cons, ih]; rfl

theorem foldCC_cc (d : Int) (v : ℚ) (l : List (Fin numCCs)) (hl : l.Nodup)
    (s : MidiState) (j : Fin numCCs) :
    ((l.foldl (fun st i => ccEventIn st i d v) s).cc j)
      = if j ∈ l then insertEventInVector (s.cc j) d v else s.cc j := by
  induction l generalizing s with
  | nil => simp
  | cons i t ih =>
    rw [List.foldl_cons, ih (List.Nodup.of_cons hl)]
    by_cases hji : j = i
    · subst hji
      have hjt : j ∉ t := (List.nodup_cons.mp hl).1
      simp [hjt, ccEventIn_cc]
    · rw [ccEventIn_cc]
      rw [if_neg hji]
      by_cases hjt : j ∈ t <;> simp [hjt, hji]

theorem insertEventInVector_mem (l : EventVector) (d : Int) (v : ℚ) :
    (⟨d, v⟩ : MidiEvent) ∈ insertEventInVector l d v := by
  unfold insertEventInVector
  dsimp only
  split
  · simp
  · split
    · simp
    · next e rest hne =>
      push_neg at hne
      simp [hne]

end MidiState
end Sfizz
namespace Sfizz
namespace MidiState

theorem pitchBendEvent_cc (s : MidiState) (d : Int) (v : ℚ) :
    (pitchBendEvent s d v).cc = s.cc := rfl

theorem pitchBendEvent_channelAftertouchEvents (s : MidiState) (d : Int) (v : ℚ) :
    (pitchBendEvent s d v).channelAftertouchEvents = s.channelAftertouchEvents := rfl

theorem pitchBendEvent_pitchEvents (s : MidiState) (d : Int) (v : ℚ) :
    (pitchBendEvent s d v).pitchEvents = insertEventInVector s.pitchEvents d v := rfl

theorem resetAllControllers_eq (s : MidiState) (d : Int) :
    resetAllControllers s d =
      pitchBendEvent
        ((List.finRange numCCs).foldl (fun st i => ccEventIn st i d 0) s) d 0 := rfl

end MidiState
end Sfizz
namespace Sfizz

/-- C1: the claim says inserting at an already-present offset overwrites in
place so the lane does not grow.  The code (upper_bound-based
`insertEventInVector`) instead appends a second entry at the same offset:
from the fresh lane `[(0,0)]`, inserting value 1 at offset 10 and then
value 2 at offset 10 yields three entries, two of them at offset 10 —
evaluating the embedded code at the failing input. -/
theorem claim1_insert_same_offset_appends :
    insertEventInVector (insertEventInVector freshLane 10 1) 10 2
      = [⟨0, 0⟩, ⟨10, 1⟩, ⟨10, 2⟩] ∧
    (insertEventInVector freshLane 10 1).length = 2 ∧
    (insertEventInVector (insertEventInVector freshLane 10 1) 10 2).length = 3 := by
  refine ⟨by decide, by decide, by decide⟩

/-- C2: the claim says any sequence of insertions keeps a timeline strictly
ascending with at most one entry per offset.  Starting from the
just-constructed state, a single pitch-bend insertion at offset 0 already
produces two entries at offset 0, refuting strict ascent/offset-uniqueness
(evaluating the embedded code at the failing input). -/
theorem claim2_lane_not_offset_unique :
    (MidiState.pitchBendEvent MidiState.init 0 1).pitchEvents = [⟨0, 0⟩, ⟨0, 1⟩] ∧
    ¬ List.Pairwise (fun a b : MidiEvent => a.delay < b.delay)
        (MidiState.pitchBendEvent MidiState.init 0 1).pitchEvents := by
  refine ⟨by decide, by decide⟩

/-- C3 counterexample: `ccEvent` performs no release bounds check on the
controller index, so at index `numCCs` (= 512) it performs the
out-of-bounds table access the claim says never happens (`none` in the
model). -/
theorem claim3_counterexample :
    MidiState.ccEvent MidiState.init 0 512 0 = none := rfl

/-- C3 amended: `noteOnEvent`, `noteOffEvent`, `getNoteDuration` and
`getCCEvents` check their index and no-op or return a harmless default
when it is out of range; `getNoteVelocity`, `ccEvent` and `getCCValue`
perform the table access unconditionally, so exactly the out-of-range
indices produce an out-of-bounds access (`none`). -/
theorem claim3_amended_bounds :
    (∀ (s : MidiState) (d n : Int) (v : ℚ), n < 0 ∨ 128 ≤ n →
      MidiState.noteOnEvent s d n v = s) ∧
    (∀ (s : MidiState) (d n : Int) (v : ℚ), n < 0 ∨ 128 ≤ n →
      MidiState.noteOffEvent s d n v = s) ∧
    (∀ (s : MidiState) (n d : Int), n < 0 ∨ 128 ≤ n →
      MidiState.getNoteDuration s n d = 0) ∧
    (∀ (s : MidiState) (i : Int), i < 0 ∨ (numCCs : Int) ≤ i →
      MidiState.getCCEvents s i = nullEvent) ∧
    (∀ (s : MidiState) (n : Int),
      MidiState.getNoteVelocity s n = none ↔ n < 0 ∨ 128 ≤ n) ∧
    (∀ (s : MidiState) (d i : Int) (v : ℚ),
      MidiState.ccEvent s d i v = none ↔ i < 0 ∨ (numCCs : Int) ≤ i) ∧
    (∀ (s : MidiState) (i : Int),
      MidiState.getCCValue s i = none ↔ i < 0 ∨ (numCCs : Int) ≤ i) := by
  refine ⟨?_, ?_, ?_, ?_, ?_, ?_, ?_⟩
  · intro s d n v h; unfold MidiState.noteOnEvent; rw [dif_neg (by omega)]
  · intro s d n v h; unfold MidiState.noteOffEvent; rw [dif_neg (by omega)]
  · intro s n d h; unfold MidiState.getNoteDuration; rw [dif_pos (by omega)]
  · intro s i h; unfold MidiState.getCCEvents; rw [dif_pos (by omega)]
  · intro s n; unfold MidiState.getNoteVelocity
    by_cases h : 0 ≤ n ∧ n < 128
    · rw [dif_pos h]; simp; omega
    · rw [dif_neg h]; simp; omega
  · intro s d i v; unfold MidiState.ccEvent
    by_cases h : 0 ≤ i ∧ i < (numCCs : Int)
    · rw [dif_pos h]; simp; omega
    · rw [dif_neg h]; simp; omega
  · intro s i; unfold MidiState.getCCValue
    by_cases h : 0 ≤ i ∧ i < (numCCs : Int)
    · rw [dif_pos h]; simp; omega
    · rw [dif_neg h]; simp; omega

/-- Witness for C3 amended: concrete out-of-range inputs. -/
theorem claim3_amended_bounds_witness :
    MidiState.noteOnEvent MidiState.init 0 200 0 = MidiState.init ∧
    MidiState.getNoteDuration MidiState.init (-3) 0 = 0 ∧
    MidiState.ccEvent MidiState.init 0 999 0 = none ∧
    MidiState.getCCEvents MidiState.init 999 = nullEvent :=
  ⟨claim3_amended_bounds.1 MidiState.init 0 200 0 (by omega),
   claim3_amended_bounds.2.2.1 MidiState.init (-3) 0 (by omega),
   (claim3_amended_bounds.2.2.2.2.2.1 MidiState.init 0 999 0).mpr (by decide),
   claim3_amended_bounds.2.2.2.1 MidiState.init 999 (by decide)⟩

/-- C4 counterexample: in the reachable state `staleOnState` the stored
note-on timestamp of note 60 (namely 1) is strictly later than its stored
note-off timestamp (0, the sentinel), yet `getNoteDuration` does not
return 0 — the code demands both timestamps nonzero. -/
theorem claim4_counterexample :
    MidiState.staleOnState.noteOnTimes ⟨60, by omega⟩ >
      MidiState.staleOnState.noteOffTimes ⟨60, by omega⟩ ∧
    MidiState.getNoteDuration MidiState.staleOnState 60 0 ≠ 0 := by
  refine ⟨by decide, ?_⟩
  have h : MidiState.getNoteDuration MidiState.staleOnState 60 0
      = ((1 : Nat) : ℚ) / 48000 := rfl
  rw [h]; norm_num

/-- C4 amended: for an in-range note whose stored note-off timestamp is
nonzero and whose note-on timestamp is strictly later, `getNoteDuration`
returns 0 (the extra nonzero-off condition is what the code checks; a
nonzero on-time then follows). -/
theorem claim4_amended_duration_zero (s : MidiState) (n d : Int)
    (h0 : 0 ≤ n) (h1 : n < 128)
    (hoff : s.noteOffTimes ⟨n.toNat, by omega⟩ ≠ 0)
    (hgt : s.noteOnTimes ⟨n.toNat, by omega⟩ >
      s.noteOffTimes ⟨n.toNat, by omega⟩) :
    MidiState.getNoteDuration s n d = 0 := by
  unfold MidiState.getNoteDuration
  rw [dif_neg (by omega)]
  rw [if_pos ⟨by omega, hoff, hgt⟩]

/-- Witness for C4 amended: the reachable state with note-on time 2 and
note-off time 1 for note 60 reports duration 0. -/
theorem claim4_amended_duration_zero_witness :
    MidiState.getNoteDuration MidiState.onAfterOffState 60 0 = 0 :=
  claim4_amended_duration_zero MidiState.onAfterOffState 60 0 (by omega) (by omega)
    (by decide) (by decide)

end Sfizz
namespace Sfizz

/-- C5 counterexample: after `setSampleRate 96000` followed by `reset()`,
the note-duration query at offset 1 differs from the freshly constructed
state (1/96000 versus 1/48000 seconds): `reset` does not restore the
sample rate, so the reset state is not observably equal to construction. -/
theorem claim5_counterexample :
    MidiState.getNoteDuration
        (MidiState.reset (MidiState.setSampleRate MidiState.init 96000)) 60 1 ≠
      MidiState.getNoteDuration MidiState.init 60 1 := by
  have h1 : MidiState.getNoteDuration
      (MidiState.reset (MidiState.setSampleRate MidiState.init 96000)) 60 1
      = ((1 : Nat) : ℚ) / 96000 := rfl
  have h2 : MidiState.getNoteDuration MidiState.init 60 1
      = ((1 : Nat) : ℚ) / 48000 := rfl
  rw [h1, h2]; norm_num

/-- C5 amended: `reset` restores every field except the stored sample rate
and block length to the just-constructed values; consequently the reset
state is observably equal to the just-constructed one exactly when the
sample rate and block length still hold their construction defaults. -/
theorem claim5_amended_reset_frame (s : MidiState) :
    MidiState.reset s =
      { MidiState.init with
        sampleRate := s.sampleRate
        samplesPerBlock := s.samplesPerBlock } ∧
    (s.sampleRate = defaultSampleRate → s.samplesPerBlock = defaultSamplesPerBlock →
      MidiState.reset s = MidiState.init) := by
  refine ⟨rfl, fun h1 h2 => ?_⟩
  have h : MidiState.reset s =
      { MidiState.init with
        sampleRate := s.sampleRate
        samplesPerBlock := s.samplesPerBlock } := rfl
  rw [h, h1, h2]
  exact rfl

/-- Witness for C5 amended: resetting the just-constructed state gives back
the just-constructed state. -/
theorem claim5_amended_reset_frame_witness :
    MidiState.reset MidiState.init = MidiState.init :=
  (claim5_amended_reset_frame MidiState.init).2 rfl rfl

/-- C6: `resetAllControllers d` leaves the channel-aftertouch lane (and its
latest value) unchanged, turns every controller lane into the result of
inserting value 0 at offset d (so each lane contains the event (d, 0)),
and does the same to the pitch-bend lane. -/
theorem claim6_resetAllControllers_effect (s : MidiState) (d : Int) :
    (MidiState.resetAllControllers s d).channelAftertouchEvents =
      s.channelAftertouchEvents ∧
    MidiState.getChannelAftertouch (MidiState.resetAllControllers s d) =
      MidiState.getChannelAftertouch s ∧
    (∀ i : Fin numCCs,
      (MidiState.resetAllControllers s d).cc i = insertEventInVector (s.cc i) d 0 ∧
      (⟨d, 0⟩ : MidiEvent) ∈ (MidiState.resetAllControllers s d).cc i) ∧
    (MidiState.resetAllControllers s d).pitchEvents =
      insertEventInVector s.pitchEvents d 0 ∧
    (⟨d, 0⟩ : MidiEvent) ∈ (MidiState.resetAllControllers s d).pitchEvents := by
  have hafter : (MidiState.resetAllControllers s d).channelAftertouchEvents =
      s.channelAftertouchEvents := by
    rw [MidiState.resetAllControllers_eq,
      MidiState.pitchBendEvent_channelAftertouchEvents,
      MidiState.foldCC_channelAftertouchEvents]
  have hcc : ∀ i : Fin numCCs,
      (MidiState.resetAllControllers s d).cc i = insertEventInVector (s.cc i) d 0 := by
    intro i
    rw [MidiState.resetAllControllers_eq, MidiState.pitchBendEvent_cc,
      MidiState.foldCC_cc d 0 (List.finRange numCCs) (List.nodup_finRange _) s i,
      if_pos (List.mem_finRange i)]
  have hp : (MidiState.resetAllControllers s d).pitchEvents =
      insertEventInVector s.pitchEvents d 0 := by
    rw [MidiState.resetAllControllers_eq, MidiState.pitchBendEvent_pitchEvents,
      MidiState.foldCC_pitchEvents]
  refine ⟨hafter, ?_, fun i => ⟨hcc i, ?_⟩, hp, ?_⟩
  · unfold MidiState.getChannelAftertouch; rw [hafter]
  · rw [hcc i]; exact MidiState.insertEventInVector_mem (s.cc i) d 0
  · rw [hp]; exact MidiState.insertEventInVector_mem s.pitchEvents d 0

/-- C7: from a freshly reset state configured with sample rate 48000 and
block length 512, `noteOn(0, 60, 0.8)` followed by `advanceBlock(512)`
leaves the note-on timestamp of note 60 at the sentinel 0, and
`noteDuration(60, 0)` returns exactly 512/48000 seconds. -/
theorem claim7_duration_scenario :
    MidiState.durationScenario.noteOnTimes ⟨60, by omega⟩ = 0 ∧
    MidiState.getNoteDuration MidiState.durationScenario 60 0 = 512 / 48000 := by
  refine ⟨by decide, ?_⟩
  have h : MidiState.getNoteDuration MidiState.durationScenario 60 0
      = ((512 : Nat) : ℚ) / 48000 := rfl
  rw [h]; norm_num

end Sfizz
namespace Sfizz

/-- C8 counterexample: in the reachable state `manyNoteOns` (129 note-on
calls), `allNotesOff(0)` leaves the active-note count at 1, not 0 — each
of its 128 note-offs decrements at most once. -/
theorem claim8_counterexample :
    MidiState.manyNoteOns.activeNotes = 129 ∧
    (MidiState.allNotesOff MidiState.manyNoteOns 0).activeNotes ≠ 0 := by
  refine ⟨by decide, ?_⟩
  unfold MidiState.allNotesOff
  rw [MidiState.foldOff_activeNotes 0 (List.range 128) (by simp)]
  have h : MidiState.manyNoteOns.activeNotes = 129 := by decide
  rw [h]
  simp

/-- C8 amended: `allNotesOff d` sets every note's off-timestamp to
`internalClock + d` (in unsigned arithmetic) and lowers the active-note
count by up to 128, flooring at 0 — so the count becomes 0 exactly
whenever at most 128 note-ons are outstanding; each individual in-range
note-off decrements the count by one, never below 0. -/
theorem claim8_amended_allNotesOff (s : MidiState) (d : Int) :
    (∀ m : Fin 128, (MidiState.allNotesOff s d).noteOffTimes m =
      uadd s.internalClock (u32ofInt d)) ∧
    (MidiState.allNotesOff s d).activeNotes = s.activeNotes - 128 ∧
    (s.activeNotes ≤ 128 → (MidiState.allNotesOff s d).activeNotes = 0) ∧
    (∀ (n : Int) (v : ℚ), 0 ≤ n → n < 128 →
      (MidiState.noteOffEvent s d n v).activeNotes = s.activeNotes - 1) := by
  have hact : (MidiState.allNotesOff s d).activeNotes = s.activeNotes - 128 := by
    unfold MidiState.allNotesOff
    rw [MidiState.foldOff_activeNotes d (List.range 128) (by simp)]
    simp
  refine ⟨?_, hact, fun h => by omega, ?_⟩
  · intro m
    unfold MidiState.allNotesOff
    rw [MidiState.foldOff_noteOffTimes d (List.range 128) (by simp)]
    rw [if_pos (List.mem_range.mpr m.isLt)]
  · intro n v h0 h1
    exact MidiState.noteOffEvent_activeNotes s d n v h0 h1

/-- Witness for C8 amended: from the just-constructed state, `allNotesOff 0`
stamps note 5 with the clock value and brings the count to 0, and a single
note-off on note 5 keeps the count at 0 (floored). -/
theorem claim8_amended_allNotesOff_witness :
    (MidiState.allNotesOff MidiState.init 0).noteOffTimes ⟨5, by omega⟩ =
      uadd MidiState.init.internalClock (u32ofInt 0) ∧
    (MidiState.allNotesOff MidiState.init 0).activeNotes = 0 ∧
    (MidiState.noteOffEvent MidiState.init 0 5 0).activeNotes =
      MidiState.init.activeNotes - 1 :=
  ⟨(claim8_amended_allNotesOff MidiState.init 0).1 ⟨5, by omega⟩,
   (claim8_amended_allNotesOff MidiState.init 0).2.2.1 (by decide),
   (claim8_amended_allNotesOff MidiState.init 0).2.2.2 5 0 (by omega) (by omega)⟩

/-- C9: an in-range note-on always increments the active-note count by
exactly one (even when the note is already sounding), and 129 note-ons on
the single note 60 drive the count to 129 > 128. -/
theorem claim9_noteOn_increments_active (s : MidiState) (d n : Int) (v : ℚ)
    (h0 : 0 ≤ n) (h1 : n < 128) :
    (MidiState.noteOnEvent s d n v).activeNotes = s.activeNotes + 1 ∧
    128 < MidiState.manyNoteOns.activeNotes := by
  constructor
  · unfold MidiState.noteOnEvent; rw [dif_pos ⟨h0, h1⟩]
  · decide

/-- Witness for C9: note 60 from the just-constructed state. -/
theorem claim9_noteOn_increments_active_witness :
    (MidiState.noteOnEvent MidiState.init 0 60 1).activeNotes =
      MidiState.init.activeNotes + 1 ∧
    128 < MidiState.manyNoteOns.activeNotes :=
  claim9_noteOn_increments_active MidiState.init 0 60 1 (by omega) (by omega)

/-- C10: `setSampleRate` stores the new rate, zeroes the internal clock and
every note-on/off timestamp, and leaves everything else — velocities,
last-played note, active-note count, block length, and all controller,
pitch-bend and aftertouch timelines — unchanged. -/
theorem claim10_setSampleRate_frame (s : MidiState) (r : ℚ) :
    (MidiState.setSampleRate s r).sampleRate = r ∧
    (MidiState.setSampleRate s r).internalClock = 0 ∧
    (∀ m : Fin 128, (MidiState.setSampleRate s r).noteOnTimes m = 0) ∧
    (∀ m : Fin 128, (MidiState.setSampleRate s r).noteOffTimes m = 0) ∧
    (MidiState.setSampleRate s r).lastNoteVelocities = s.lastNoteVelocities ∧
    (MidiState.setSampleRate s r).lastNotePlayed = s.lastNotePlayed ∧
    (MidiState.setSampleRate s r).activeNotes = s.activeNotes ∧
    (MidiState.setSampleRate s r).samplesPerBlock = s.samplesPerBlock ∧
    (MidiState.setSampleRate s r).cc = s.cc ∧
    (MidiState.setSampleRate s r).pitchEvents = s.pitchEvents ∧
    (MidiState.setSampleRate s r).channelAftertouchEvents =
      s.channelAftertouchEvents :=
  ⟨rfl, rfl, fun _ => rfl, fun _ => rfl, rfl, rfl, rfl, rfl, rfl, rfl, rfl⟩

end Sfizz
